import Mathlib

/-!
Verification development for the residential content-fetch service
(services/content-extractor.ts, services/browser-pool.ts, services/youtube.ts,
services/twitter-extractor.ts, utils/cache.ts).

Shallow embedding: the TypeScript functions named in each doc comment are
translated into executable Lean definitions (stateful code becomes explicit
state passing, machine numbers become Nat/ℚ, fallible code returns Option),
and the spec claims are settled as theorems about those definitions.
-/

namespace Js

/-- JS `haystack.includes(needle)`: `needle` occurs as a contiguous substring. -/
def includes (s sub : String) : Bool :=
  decide (sub.data <:+: s.data)

/-- JS `s.toLowerCase()` on the ASCII text handled here: lowercase each
character. -/
def toLowerCase (s : String) : String :=
  String.mk (s.data.map Char.toLower)

/-- JS whitespace class `\s` restricted to the ASCII whitespace that occurs in
the inputs handled here (space, tab, CR, LF), matching Char.isWhitespace. -/
def isWs (c : Char) : Bool :=
  c.isWhitespace

/-- JS `String.prototype.trim` on a character list. -/
def trimChars (l : List Char) : List Char :=
  ((l.dropWhile isWs).reverse.dropWhile isWs).reverse

/-- JS `s.split(sep)` for a one-character literal separator, on character
lists: cut at each occurrence of the separator. -/
def splitOnChar (sep : Char) : List Char → List (List Char)
  | [] => [[]]
  | c :: rest =>
    if c = sep then [] :: splitOnChar sep rest
    else
      match splitOnChar sep rest with
      | [] => [[c]]
      | g :: gs => (c :: g) :: gs

/-- JS `s.split(/\s+/)` on character lists: cut at each maximal whitespace
run (a leading run contributes a leading empty piece, as in JS).  A
whitespace character followed by further whitespace extends the current
separator run; the last character of a run performs the cut. -/
def splitWsRuns : List Char → List (List Char)
  | [] => [[]]
  | c :: rest =>
    if isWs c then
      match rest, splitWsRuns rest with
      | c2 :: _, r => if isWs c2 then r else [] :: r
      | [], r => [] :: r
    else
      match splitWsRuns rest with
      | [] => [[c]]
      | g :: gs => (c :: g) :: gs

end Js

namespace ContentErr

/-- ContentErrorType from types/index.ts (variants used by classifyError). -/
inductive ContentErrorType where
  | InvalidUrl
  | Timeout
  | NetworkError
  | Blocked
  | NotFound
  | ServerError
  | Unknown
deriving DecidableEq

/-- classifyError from content-extractor.ts lines 160-170 (the identical
function also appears in twitter-extractor.ts lines 334-344): lowercase the
message, then test the fixed substring rules in precedence order. -/
def classifyError (message : String) : ContentErrorType :=
  let lowerMessage := Js.toLowerCase message
  if Js.includes lowerMessage "timeout" then .Timeout
  else if Js.includes lowerMessage "net::" || Js.includes lowerMessage "network" then .NetworkError
  else if Js.includes lowerMessage "blocked" || Js.includes lowerMessage "403" then .Blocked
  else if Js.includes lowerMessage "404" || Js.includes lowerMessage "not found" then .NotFound
  else if Js.includes lowerMessage "500" || Js.includes lowerMessage "502" || Js.includes lowerMessage "503" then .ServerError
  else .Unknown

end ContentErr

namespace CacheUtil

/-- generateCacheKey from utils/cache.ts lines 101-107.  A JS object literal is
modeled as an insertion-ordered association list with pairwise-distinct keys;
`Object.keys(params).sort()` sorts the keys as strings ascending, and each
sorted key is rendered as `key=value` before joining with `&`. -/
def generateCacheKey (pre : String) (params : List (String × String)) : String :=
  let sortedKeys := (params.map Prod.fst).insertionSort (· ≤ ·)
  let sortedParams := sortedKeys.map
    (fun k => k ++ "=" ++ (((params.find? (fun p => p.1 == k)).map Prod.snd).getD ""))
  pre ++ ":" ++ String.intercalate "&" sortedParams

/-- Shared in-memory content cache state (utils/cache.ts): the LRU entry map
plus the process-lifetime hit/miss counters. -/
structure CacheState (α : Type) where
  entries : List (String × α)
  hits : Nat
  misses : Nat
deriving DecidableEq

/-- Legacy stats record returned by getCacheStats in services/youtube.ts. -/
structure LegacyCacheStats where
  size : Nat
  keys : List String
deriving DecidableEq

/-- clearCache from services/youtube.ts lines 392-395 ("Legacy exports for
compatibility"): the body only emits a log line; no operation of
utils/cache.ts is invoked, so the shared cache state passes through. -/
def clearCacheLegacy {α : Type} (s : CacheState α) : CacheState α :=
  s

/-- getCacheStats from services/youtube.ts lines 397-402: returns the constant
record with size 0 and an empty key list, reading nothing from the shared
cache state. -/
def getCacheStatsLegacy {α : Type} (_s : CacheState α) : LegacyCacheStats :=
  { size := 0, keys := [] }

end CacheUtil

namespace BrowserPool

/-- ManagedContext from services/browser-pool.ts lines 192-197: a managed
browsing context.  `viewport` and `userAgent` record the options passed to
`browser.newContext` when the context was created (lines 275-278); `id` is the
key of the `contexts` map, abstracted to a Nat drawn from a fresh counter. -/
structure Session where
  id : Nat
  inUse : Bool
  viewport : Nat × Nat
  userAgent : String
deriving DecidableEq

/-- The fixed viewport passed to `browser.newContext` (line 276). -/
def contextViewport : Nat × Nat := (1280, 720)

/-- The fixed user-agent string passed to `browser.newContext` (line 277). -/
def contextUserAgent : String :=
  "Mozilla/5.0 (Windows NT 10.0; Win64; x64) AppleWebKit/537.36 (KHTML, like Gecko) Chrome/120.0.0.0 Safari/537.36"

/-- The pool's `contexts` map, as the list of managed contexts in insertion
order (`Array.from(this.contexts.values())` iterates in insertion order). -/
abbrev Pool := List Session

/-- `Array.from(this.contexts.values()).filter(c => c.inUse).length`
(browser-pool.ts line 251 and line 316). -/
def activeCount (pool : Pool) : Nat :=
  (pool.filter (fun c => c.inUse)).length

/-- `Array.from(this.contexts.values()).find(c => !c.inUse)` (line 258). -/
def findIdle (pool : Pool) : Option Session :=
  pool.find? (fun c => !c.inUse)

/-- `available.inUse = true` (line 260): mutate the session with this id. -/
def markInUse (pool : Pool) (id : Nat) : Pool :=
  pool.map (fun c => if c.id = id then { c with inUse := true } else c)

/-- releaseContext from browser-pool.ts lines 297-303: set `inUse` to false on
the managed context with this id, if present; never removes the session. -/
def releaseContext (pool : Pool) (id : Nat) : Pool :=
  pool.map (fun c => if c.id = id then { c with inUse := false } else c)

/-- Result of acquireContext: reuse of an existing idle context (wait branch,
lines 258-266), creation of a fresh context (lines 274-294), or the
`Timeout waiting for browser context` exception (line 270). -/
inductive AcquireOutcome where
  | reused (id : Nat)
  | created (id : Nat)
  | timeout
deriving DecidableEq

/-- acquireContext from browser-pool.ts lines 239-295, run as one atomic step
of the cooperative scheduler (no other pool mutation interleaved): if the
in-use count is at or above `config.browserMaxContexts`, the wait loop looks
for an idle context — since no other task runs, the first poll decides: an
idle context found is marked in-use and returned, otherwise the loop expires
and the call throws Timeout; below the maximum a fresh context is always
created (with the fixed viewport and user-agent), inserted marked in-use, and
returned — idle contexts are not consulted on this branch. -/
def acquireContext (pool : Pool) (nextId : Nat) (maxContexts : Nat) :
    AcquireOutcome × Pool :=
  if maxContexts ≤ activeCount pool then
    match findIdle pool with
    | some c => (.reused c.id, markInUse pool c.id)
    | none => (.timeout, pool)
  else
    (.created nextId,
      pool ++ [{ id := nextId, inUse := true,
                 viewport := contextViewport, userAgent := contextUserAgent }])

/-- One snapshot of the contexts map per iteration of the wait loop
(lines 257-268); the loop runs only while `Date.now() - startWait < timeoutMs`,
so the snapshot list is finite.  Returns the first context observed idle. -/
def waitForIdle : List Pool → Option Session
  | [] => none
  | pool :: later =>
    match findIdle pool with
    | some c => some c
    | none => waitForIdle later

/-- Pool state: the contexts map plus the fresh-id counter abstracting the
`ctx_${Date.now()}_${random}` id generation (line 274). -/
structure PoolState where
  pool : Pool
  nextId : Nat
deriving DecidableEq

/-- The two pool mutations reachable from the extractors: an acquireContext
call and a releaseContext call. -/
inductive PoolOp where
  | acquire
  | release (id : Nat)
deriving DecidableEq

/-- One pool operation, run atomically. -/
def stepOp (maxContexts : Nat) (s : PoolState) : PoolOp → PoolState
  | .acquire =>
    match acquireContext s.pool s.nextId maxContexts with
    | (.created _, pool) => { pool := pool, nextId := s.nextId + 1 }
    | (_, pool) => { pool := pool, nextId := s.nextId }
  | .release id => { s with pool := releaseContext s.pool id }

/-- A sequence of atomic acquire/release operations against the pool. -/
def runOps (maxContexts : Nat) : PoolState → List PoolOp → PoolState
  | s, [] => s
  | s, op :: ops => runOps maxContexts (stepOp maxContexts s op) ops

/-- The pool singleton starts with an empty contexts map (line 201). -/
def initState : PoolState := { pool := [], nextId := 0 }

end BrowserPool

namespace FetchDiscipline

open BrowserPool

/-- How one pooled fetch call unfolds.  fetchContent (content-extractor.ts
lines 11-155) and fetchFromNitter / fetchFromTwitterDirect
(twitter-extractor.ts lines 77-175 and 180-300) all follow the same shape:
early returns before any acquisition (invalid URL, cache hit), a possible
throw out of `acquireContext` or out of `browser.newContext` before the
`context` variable is assigned, and otherwise a body (createPage, goto,
evaluate, ...) that either succeeds or throws, followed in every case by the
`finally` block that closes the page (errors ignored) and calls
`context.release()`. -/
inductive CallOutcome where
  | earlyReturn
  | createThrows
  | bodyThrows
  | bodySucceeds
deriving DecidableEq

/-- Trace of one fetch call: the resulting pool state, the ids acquired during
the call, and the ids released before the call returned. -/
structure CallTrace where
  state : PoolState
  acquired : List Nat
  released : List Nat
deriving DecidableEq

/-- One fetch call against the pool.  On the early-return paths and when
context creation throws before `this.contexts.set` runs, the pool is
untouched and no release happens (the caller's `context` variable was never
assigned).  When `acquireContext` throws Timeout, the catch block converts it
to an error result and the `finally` block releases nothing.  Otherwise the
acquired context is released exactly once by the `finally` block, whether the
body succeeded or threw. -/
def fetchCall (maxContexts : Nat) (s : PoolState) : CallOutcome → CallTrace
  | .earlyReturn => ⟨s, [], []⟩
  | .createThrows => ⟨s, [], []⟩
  | _ =>
    match acquireContext s.pool s.nextId maxContexts with
    | (.timeout, pool) => ⟨⟨pool, s.nextId⟩, [], []⟩
    | (.created id, pool) => ⟨⟨releaseContext pool id, s.nextId + 1⟩, [id], [id]⟩
    | (.reused id, pool) => ⟨⟨releaseContext pool id, s.nextId⟩, [id], [id]⟩

/-- A sequence of fetch calls (any mix of successes and failures). -/
def runFetches (maxContexts : Nat) : PoolState → List CallOutcome → PoolState
  | s, [] => s
  | s, o :: os => runFetches maxContexts ((fetchCall maxContexts s o).state) os

end FetchDiscipline

namespace ContentExtract

/-- `content.text.split(/\s+/).filter(w => w.length > 0).length`
(content-extractor.ts line 109): the number of maximal non-whitespace runs. -/
def computeWordCount (text : String) : Nat :=
  ((Js.splitWsRuns text.data).filter (fun w => w.length > 0)).length

/-- The successful ContentFetchResult assembled by fetchContent
(content-extractor.ts lines 111-122), restricted to the fields the cache
decision could see. -/
structure PageResult where
  success : Bool
  url : String
  text : String
  wordCount : Nat
deriving DecidableEq

/-- Tail of the fetchContent success path (content-extractor.ts lines
109-128): compute the word count, build the successful result, and call
`cacheSet(cacheKey, result, 'content')` — unconditionally.  The returned list
records the keys written to the cache by this path. -/
def fetchContentSuccessTail (url text : String) : PageResult × List String :=
  let wordCount := computeWordCount text
  let result : PageResult := { success := true, url := url, text := text, wordCount := wordCount }
  (result, [CacheUtil.generateCacheKey "content" [("url", url)]])

end ContentExtract

namespace TwitterX

/-- The components of `new URL(u)` that parseTwitterUrl reads. -/
structure UrlParts where
  hostname : String
  pathname : String
deriving DecidableEq

/-- The text after the first `://`, if any. -/
def afterSchemeSep : List Char → Option (List Char)
  | ':' :: '/' :: '/' :: rest => some rest
  | _ :: rest => afterSchemeSep rest
  | [] => none

/-- Model of the WHATWG `new URL(u)` constructor for the `scheme://...` URLs
this service handles: the text after the first `://` is split into the
authority (up to the first `/`, `?` or `#`) and the path (up to `?` or `#`,
normalized to `/` when absent); the hostname is lowercased, and an absent
scheme separator or empty host makes the constructor throw, modeled as
none. -/
def parseUrl (u : String) : Option UrlParts :=
  match afterSchemeSep u.data with
  | none => none
  | some after =>
    let host := after.takeWhile (fun c => ¬ (c = '/' ∨ c = '?' ∨ c = '#'))
    if host.isEmpty then none
    else
      let tail := after.drop host.length
      let path :=
        match tail with
        | '/' :: _ => tail.takeWhile (fun c => ¬ (c = '?' ∨ c = '#'))
        | _ => ['/']
      some { hostname := Js.toLowerCase (String.mk host), pathname := String.mk path }

/-- The host allow-list of parseTwitterUrl (twitter-extractor.ts line 310). -/
def validHosts : List String :=
  ["twitter.com", "x.com", "www.twitter.com", "www.x.com", "mobile.twitter.com", "mobile.x.com"]

/-- Leftmost match of the pattern `\/([^/]+)\/status\/(\d+)` against the
pathname (twitter-extractor.ts line 316), at a position starting with `/`: a
nonempty run of non-slash characters, the literal `/status/`, then a nonempty
digit run.  Returns the two capture groups. -/
def matchStatusAt (rest : List Char) : Option (List Char × List Char) :=
  let user := rest.takeWhile (fun c => c ≠ '/')
  if user.isEmpty then none
  else
    let afterUser := rest.drop user.length
    if ('/' :: "status/".data).isPrefixOf afterUser then
      let afterStatus := afterUser.drop 8
      let digits := afterStatus.takeWhile Char.isDigit
      if digits.isEmpty then none else some (user, digits)
    else none

/-- Scan of `pathname.match(/\/([^/]+)\/status\/(\d+)/)`: the regex is
unanchored, so the engine tries each position left to right; a match can only
start at a `/`. -/
def matchStatusPath : List Char → Option (List Char × List Char)
  | [] => none
  | c :: rest =>
    match (if c = '/' then matchStatusAt rest else none) with
    | some r => some r
    | none => matchStatusPath rest

/-- The record returned by parseTwitterUrl (twitter-extractor.ts
lines 321-325). -/
structure TweetInfo where
  username : String
  statusId : String
  normalizedUrl : String
deriving DecidableEq

/-- parseTwitterUrl from twitter-extractor.ts lines 305-329: parse the URL
(throw becomes none), reject hostnames outside the allow-list, extract the
`/handle/status/digits` components from the pathname, and normalize to the
canonical `https://x.com/...` form. -/
def parseTwitterUrl (url : String) : Option TweetInfo :=
  match parseUrl url with
  | none => none
  | some parsed =>
    if validHosts.contains parsed.hostname then
      match matchStatusPath parsed.pathname.data with
      | some (user, digits) =>
        let u := String.mk user
        let d := String.mk digits
        some { username := u, statusId := d,
               normalizedUrl := "https://x.com/" ++ u ++ "/status/" ++ d }
      | none => none
    else none

/-- The cache key used by fetchTwitterContent (twitter-extractor.ts line 37):
`generateCacheKey('twitter', { url: tweetInfo.normalizedUrl })`. -/
def twitterCacheKey (info : TweetInfo) : String :=
  CacheUtil.generateCacheKey "twitter" [("url", info.normalizedUrl)]

/-- The validation gate of fetchTwitterContent (twitter-extractor.ts lines
26-34): when parseTwitterUrl yields nothing the call returns the InvalidUrl
failure without fetching; otherwise it proceeds (modeled as none). -/
def fetchTwitterValidate (url : String) : Option ContentErr.ContentErrorType :=
  match parseTwitterUrl url with
  | none => some ContentErr.ContentErrorType.InvalidUrl
  | some _ => none

end TwitterX

namespace Youtube

/-- TranscriptSegment from types (start and duration in seconds); JS numbers
carrying exact decimal timestamp arithmetic are modeled as rationals. -/
structure TranscriptSegment where
  start : ℚ
  duration : ℚ
  text : String
deriving DecidableEq

/-- `parseInt(s, 10)` on the digit material handled here: every call site
passes a capture of a digit-run regex, so the model folds the leading digit
run in base 10. -/
def jsParseIntDec (l : List Char) : Nat :=
  (l.takeWhile Char.isDigit).foldl (fun a c => a * 10 + (c.toNat - 48)) 0

/-- `parseFloat(s)` on the `SS.mmm` material handled here: integer part, and
a fractional digit run after an optional decimal point. -/
def jsParseFloat (l : List Char) : ℚ :=
  let ip := l.takeWhile Char.isDigit
  match l.drop ip.length with
  | '.' :: fr =>
    let fd := fr.takeWhile Char.isDigit
    (jsParseIntDec ip : ℚ) + (jsParseIntDec fd : ℚ) / (10 : ℚ) ^ fd.length
  | _ => (jsParseIntDec ip : ℚ)

/-- `timestamp.split(':')` on the character list. -/
def splitOnColon : List Char → List (List Char)
  | [] => [[]]
  | c :: rest =>
    if c = ':' then [] :: splitOnColon rest
    else
      match splitOnColon rest with
      | [] => [[c]]
      | g :: gs => (c :: g) :: gs

/-- parseVttTimestamp from services/youtube.ts lines 309-315: split on `:`,
parse hours and minutes with parseInt and seconds with parseFloat, and return
`hours*3600 + minutes*60 + seconds`.  It is only applied to the 12-character
captures of the timestamp regex, which always split into three parts; other
shapes (NaN in JS) are mapped to 0. -/
def parseVttTimestamp (ts : String) : ℚ :=
  match splitOnColon ts.data with
  | p0 :: p1 :: p2 :: _ =>
    (jsParseIntDec p0 : ℚ) * 3600 + (jsParseIntDec p1 : ℚ) * 60 + jsParseFloat p2
  | _ => 0

/-- A `\d{2}:\d{2}:\d{2}\.\d{3}` match at the head of the list: the
12-character timestamp and the remainder. -/
def takeTimestamp : List Char → Option (List Char × List Char)
  | d1 :: d2 :: c1 :: d3 :: d4 :: c2 :: d5 :: d6 :: dot :: d7 :: d8 :: d9 :: rest =>
    if d1.isDigit && d2.isDigit && (c1 == ':') && d3.isDigit && d4.isDigit && (c2 == ':') &&
       d5.isDigit && d6.isDigit && (dot == '.') && d7.isDigit && d8.isDigit && d9.isDigit then
      some ([d1, d2, c1, d3, d4, c2, d5, d6, dot, d7, d8, d9], rest)
    else none
  | _ => none

/-- An attempt to match the full timestamp-line pattern
`(\d{2}:\d{2}:\d{2}\.\d{3})\s*-->\s*(\d{2}:\d{2}:\d{2}\.\d{3})` at the head
of the list, returning the two capture groups. -/
def tryTimestampPair (l : List Char) : Option (List Char × List Char) :=
  match takeTimestamp l with
  | none => none
  | some (ts1, r1) =>
    match r1.dropWhile Js.isWs with
    | '-' :: '-' :: '>' :: r3 =>
      match takeTimestamp (r3.dropWhile Js.isWs) with
      | some (ts2, _) => some (ts1, ts2)
      | none => none
    | _ => none

/-- `line.match(/(\d{2}:\d{2}:\d{2}\.\d{3})\s*-->\s*(\d{2}:\d{2}:\d{2}\.\d{3})/)`
(services/youtube.ts line 265): the pattern is unanchored, so the engine tries
each position left to right and reports the leftmost match. -/
def scanVttTimestamps : List Char → Option (List Char × List Char)
  | [] => none
  | c :: rest =>
    match tryTimestampPair (c :: rest) with
    | some r => some r
    | none => scanVttTimestamps rest

/-- `line.replace(/<[^>]+>/g, '')` (services/youtube.ts line 284): remove each
leftmost non-overlapping run `<`, one or more non-`>` characters, `>`; a `<`
that starts no such run (followed directly by `>`, or with no closing `>`
after it) is kept and scanning continues at the next character. -/
def stripTagsF : Nat → List Char → List Char
  | _, [] => []
  | 0, l => l
  | fuel + 1, c :: rest =>
    if c = '<' then
      let body := rest.takeWhile (fun x => x ≠ '>')
      if body.length = 0 ∨ body.length = rest.length then
        c :: stripTagsF fuel rest
      else
        stripTagsF fuel (rest.drop (body.length + 1))
    else
      c :: stripTagsF fuel rest

/-- Entry point of the scan, with enough fuel for the whole input: each step
of stripTagsF consumes at least one input character, so fuel equal to the
input length makes the fuel-exhausted arm unreachable. -/
def stripTags (l : List Char) : List Char :=
  stripTagsF l.length l

/-- `.replace(/^\[.*?\]\s*/, '')` (services/youtube.ts line 285): when the
line starts with `[`, drop through the first `]` and any following whitespace;
otherwise (including when no `]` follows) the line is unchanged.  The lines
handled here contain no line terminators, so the lazy dot is a plain scan. -/
def stripSpeaker (l : List Char) : List Char :=
  match l with
  | '[' :: rest =>
    match rest.dropWhile (fun c => c ≠ ']') with
    | ']' :: after => after.dropWhile Js.isWs
    | _ => l
  | _ => l

/-- The text cleanup applied to an accumulated line (services/youtube.ts
lines 283-286): strip markup tags, strip a leading bracketed speaker label,
then trim. -/
def cleanVttTextLine (line : String) : String :=
  String.mk (Js.trimChars (stripSpeaker (stripTags line.data)))

/-- The loop state of parseVttSubtitles (services/youtube.ts lines 259-261)
together with the segments pushed so far. -/
structure VttState where
  currentStart : ℚ
  currentEnd : ℚ
  currentText : String
  segments : List TranscriptSegment
deriving DecidableEq

/-- The segment pushed when a text block is flushed (services/youtube.ts
lines 270-274 and 296-300). -/
def flushSegment (st : VttState) : TranscriptSegment :=
  { start := st.currentStart, duration := st.currentEnd - st.currentStart,
    text := String.mk (Js.trimChars st.currentText.data) }

/-- One iteration of the `for (const line of lines)` loop of parseVttSubtitles
(services/youtube.ts lines 263-292): a line matching the timestamp pattern
flushes the accumulated text block (when nonempty) and starts a new segment
from the two parsed timestamps; any other nonblank line that is not a WEBVTT
header or a NOTE accumulates its cleaned text (space-separated) when the
cleaned text is nonempty. -/
def vttStep (st : VttState) (line : String) : VttState :=
  match scanVttTimestamps line.data with
  | some (ts1, ts2) =>
    { currentStart := parseVttTimestamp (String.mk ts1),
      currentEnd := parseVttTimestamp (String.mk ts2),
      currentText := "",
      segments := if st.currentText ≠ "" then st.segments ++ [flushSegment st] else st.segments }
  | none =>
    if (String.mk (Js.trimChars line.data) != "") &&
       !("WEBVTT".data.isPrefixOf line.data) && !("NOTE".data.isPrefixOf line.data) then
      let cleanText := cleanVttTextLine line
      if cleanText ≠ "" then
        { st with currentText :=
            if st.currentText ≠ "" then st.currentText ++ " " ++ cleanText else cleanText }
      else st
    else st

/-- parseVttSubtitles from services/youtube.ts lines 255-304: split the
content into lines, run the line loop from the zeroed state, and flush the
final accumulated block when nonempty. -/
def parseVttSubtitles (vttContent : String) : List TranscriptSegment :=
  let lines := (Js.splitOnChar (Char.ofNat 10) vttContent.data).map String.mk
  let st := lines.foldl vttStep
    { currentStart := 0, currentEnd := 0, currentText := "", segments := [] }
  if st.currentText ≠ "" then st.segments ++ [flushSegment st] else st.segments

/-- TranscriptResult restricted to the fields the fetch flow inspects. -/
structure TranscriptResult where
  success : Bool
  error : Option String
  segments : List TranscriptSegment
deriving DecidableEq

/-- The permanent-error substrings of isRetryableYtDlpError
(services/youtube.ts lines 360-368). -/
def permanentYtDlpErrors : List String :=
  ["not found", "private", "unavailable", "disabled", "no captions", "no transcript", "age-restricted"]

/-- isRetryableYtDlpError from services/youtube.ts lines 354-371: a missing
(or falsy, i.e. empty) message is retryable; otherwise the message is
retryable exactly when its lowercase form contains none of the permanent
substrings. -/
def isRetryableYtDlpError (error : Option String) : Bool :=
  match error with
  | none => true
  | some e =>
    if e = "" then true
    else !(permanentYtDlpErrors.any (fun p => Js.includes (Js.toLowerCase e) p))

/-- Outcome of the fetchYouTubeTranscript control flow after a cache miss. -/
structure TranscriptFlow where
  result : TranscriptResult
  fallbackInvoked : Bool
  cacheWritten : Bool
deriving DecidableEq

/-- The post-cache-miss control flow of fetchYouTubeTranscript
(services/youtube.ts lines 44-58): run the yt-dlp backend (its result is the
`primary` argument); when it failed with a retryable error, run the npm
fallback (its result is the `fallbackResult` argument); cache the final
result exactly when it is a success. -/
def fetchYouTubeTranscriptFlow (primary fallbackResult : TranscriptResult) : TranscriptFlow :=
  let invoke := !primary.success && isRetryableYtDlpError primary.error
  let result := if invoke then fallbackResult else primary
  { result := result, fallbackInvoked := invoke, cacheWritten := result.success }

/-- One item returned by `YoutubeTranscript.fetchTranscript`: native offset
and duration in milliseconds. -/
structure RawTranscriptItem where
  offset : ℚ
  duration : ℚ
  text : String
deriving DecidableEq

/-- The segment normalization of fetchWithNpmLibrary (services/youtube.ts
lines 193-197): divide the native millisecond offset and duration by 1000. -/
def npmItemsToSegments (items : List RawTranscriptItem) : List TranscriptSegment :=
  items.map (fun item =>
    { start := item.offset / 1000, duration := item.duration / 1000, text := item.text })

end Youtube

/-! Helper lemmas shared by the claim theorems. -/

/-- Bool-level substring containment coincides with the list infix relation. -/
theorem includes_iff (s sub : String) : Js.includes s sub = true ↔ sub.data <:+: s.data := by
  simp [Js.includes]

/-- Lowercasing preserves substring containment. -/
theorem includes_toLowerCase {msg pat : String} (h : Js.includes msg pat = true) :
    Js.includes (Js.toLowerCase msg) (Js.toLowerCase pat) = true := by
  rw [includes_iff] at h ⊢
  simpa [Js.toLowerCase] using h.map Char.toLower

/-- The retryability test of services/youtube.ts spelled out over the message. -/
theorem isRetryable_iff (err : Option String) :
    Youtube.isRetryableYtDlpError err = true ↔
      (err = none ∨ ∃ e, err = some e ∧
        (e = "" ∨ ∀ p ∈ Youtube.permanentYtDlpErrors, Js.includes (Js.toLowerCase e) p = false)) := by
  cases err with
  | none => simp [Youtube.isRetryableYtDlpError]
  | some e =>
    by_cases he : e = ""
    · simp [Youtube.isRetryableYtDlpError, he]
    · simp [Youtube.isRetryableYtDlpError, he, List.any_eq_false]

/-! Claim theorems. -/

/-- C1: the claim asserts that in every reachable pool state the number of
in-use sessions never exceeds browserMaxContexts.  The code violates this
invariant: with browserMaxContexts = 1, the atomic operation sequence
acquire, release 0, acquire, acquire drives the in-use count to 2 — the
below-capacity branch created a second context instead of reusing the idle
one, and the at-capacity wait branch then handed out the idle context without
re-checking the cap.  This theorem evaluates the pool model at that failing
operation sequence. -/
theorem claim1_pool_cap_exceeded :
    1 < BrowserPool.activeCount
      (BrowserPool.runOps 1 BrowserPool.initState
        [.acquire, .release 0, .acquire, .acquire]).pool := by decide

/-- C2 counterexample: the claim says an idle session, when one exists, is
marked in-use and returned immediately.  In a pool holding one idle session
below capacity (maximum 2), acquire instead creates and returns a fresh
context; the idle session is not returned. -/
theorem claim2_counterexample :
    (BrowserPool.acquireContext
        [⟨0, false, BrowserPool.contextViewport, BrowserPool.contextUserAgent⟩] 1 2).1 ≠
      BrowserPool.AcquireOutcome.reused 0 ∧
    (BrowserPool.acquireContext
        [⟨0, false, BrowserPool.contextViewport, BrowserPool.contextUserAgent⟩] 1 2).1 =
      BrowserPool.AcquireOutcome.created 1 := by decide

/-- C2 amended: acquire first compares the in-use count against the maximum.
Below the maximum it always creates a fresh isolated context with the fixed
viewport and user-agent and returns it marked in-use, even when an idle
session exists; at or above the maximum it polls for an idle session,
returning the first one observed (marked in-use, its flag flipped from false
to true) and failing with the Timeout condition when none appears before the
timeout elapses — the poll loop is bounded, so the call never hangs. -/
theorem claim2_acquire_contract :
    (∀ (pool : BrowserPool.Pool) (nextId maxContexts : Nat),
      BrowserPool.activeCount pool < maxContexts →
        BrowserPool.acquireContext pool nextId maxContexts =
          (.created nextId,
           pool ++ [⟨nextId, true, BrowserPool.contextViewport, BrowserPool.contextUserAgent⟩]))
  ∧ (∀ (pool : BrowserPool.Pool) (nextId maxContexts : Nat) (c : BrowserPool.Session),
      maxContexts ≤ BrowserPool.activeCount pool →
      BrowserPool.findIdle pool = some c →
        c.inUse = false ∧
        BrowserPool.acquireContext pool nextId maxContexts =
          (.reused c.id, BrowserPool.markInUse pool c.id))
  ∧ (∀ (pool : BrowserPool.Pool) (nextId maxContexts : Nat),
      maxContexts ≤ BrowserPool.activeCount pool →
      BrowserPool.findIdle pool = none →
        BrowserPool.acquireContext pool nextId maxContexts = (.timeout, pool))
  ∧ (∀ snaps : List BrowserPool.Pool,
      BrowserPool.waitForIdle snaps = none ↔
        ∀ pool ∈ snaps, BrowserPool.findIdle pool = none) := by
  refine ⟨?_, ?_, ?_, ?_⟩
  · intro pool nextId maxContexts h
    simp only [BrowserPool.acquireContext]
    rw [if_neg (Nat.not_le.mpr h)]
  · intro pool nextId maxContexts c hm hf
    constructor
    · have := List.find?_some hf
      simpa using this
    · simp only [BrowserPool.acquireContext, BrowserPool.findIdle] at *
      rw [if_pos hm, hf]
  · intro pool nextId maxContexts hm hf
    simp only [BrowserPool.acquireContext]
    rw [if_pos hm, hf]
  · intro snaps
    induction snaps with
    | nil => simp [BrowserPool.waitForIdle]
    | cons pool later ih =>
      cases h : BrowserPool.findIdle pool <;>
        simp [BrowserPool.waitForIdle, h, ih]

/-- C2 amended, witness: each branch of the contract at a concrete pool. -/
theorem claim2_acquire_contract_witness :
    BrowserPool.acquireContext [] 0 1 =
      (.created 0, [⟨0, true, BrowserPool.contextViewport, BrowserPool.contextUserAgent⟩]) ∧
    (BrowserPool.acquireContext
        [⟨0, true, BrowserPool.contextViewport, BrowserPool.contextUserAgent⟩,
         ⟨1, false, BrowserPool.contextViewport, BrowserPool.contextUserAgent⟩] 2 1) =
      (.reused 1, BrowserPool.markInUse
        [⟨0, true, BrowserPool.contextViewport, BrowserPool.contextUserAgent⟩,
         ⟨1, false, BrowserPool.contextViewport, BrowserPool.contextUserAgent⟩] 1) ∧
    BrowserPool.acquireContext
        [⟨0, true, BrowserPool.contextViewport, BrowserPool.contextUserAgent⟩] 1 1 =
      (.timeout, [⟨0, true, BrowserPool.contextViewport, BrowserPool.contextUserAgent⟩]) ∧
    BrowserPool.waitForIdle
        [[⟨0, true, BrowserPool.contextViewport, BrowserPool.contextUserAgent⟩]] = none := by
  refine ⟨claim2_acquire_contract.1 [] 0 1 (by decide), ?_, ?_, ?_⟩
  · exact (claim2_acquire_contract.2.1
      [⟨0, true, BrowserPool.contextViewport, BrowserPool.contextUserAgent⟩,
       ⟨1, false, BrowserPool.contextViewport, BrowserPool.contextUserAgent⟩] 2 1
      ⟨1, false, BrowserPool.contextViewport, BrowserPool.contextUserAgent⟩
      (by decide) (by decide)).2
  · exact claim2_acquire_contract.2.2.1
      [⟨0, true, BrowserPool.contextViewport, BrowserPool.contextUserAgent⟩] 1 1
      (by decide) (by decide)
  · exact (claim2_acquire_contract.2.2.2
      [[⟨0, true, BrowserPool.contextViewport, BrowserPool.contextUserAgent⟩]]).mpr (by decide)

/-- C5 counterexample: the claim says every message containing
`net::ERR_TIMED_OUT` classifies as Timeout.  The lowercased literal contains
`timed_out`, not `timeout`, so the first rule does not fire; the `net::` rule
does, and the message classifies as NetworkError. -/
theorem claim5_counterexample :
    Js.includes "net::ERR_TIMED_OUT" "net::ERR_TIMED_OUT" = true ∧
    ContentErr.classifyError "net::ERR_TIMED_OUT" = ContentErr.ContentErrorType.NetworkError ∧
    ContentErr.classifyError "net::ERR_TIMED_OUT" ≠ ContentErr.ContentErrorType.Timeout := by
  decide

/-- C5 amended: with the rules evaluated on the lowercased message in the
precedence order timeout, NetworkError, Blocked, NotFound, ServerError,
Unknown: a message containing `net::ERR_TIMED_OUT` classifies as Timeout when
its lowercase form also contains `timeout` and otherwise as NetworkError
(via the `net::` rule); a message containing `403` classifies as Blocked
provided no higher-precedence substring (timeout, net::, network) occurs in
its lowercase form; and a message matching none of the rules classifies as
Unknown. -/
theorem claim5_classify_error :
    (∀ msg : String, Js.includes msg "net::ERR_TIMED_OUT" = true →
        ContentErr.classifyError msg =
          (if Js.includes (Js.toLowerCase msg) "timeout" then
            ContentErr.ContentErrorType.Timeout
           else ContentErr.ContentErrorType.NetworkError))
  ∧ (∀ msg : String, Js.includes msg "403" = true →
      Js.includes (Js.toLowerCase msg) "timeout" = false →
      Js.includes (Js.toLowerCase msg) "net::" = false →
      Js.includes (Js.toLowerCase msg) "network" = false →
        ContentErr.classifyError msg = ContentErr.ContentErrorType.Blocked)
  ∧ (∀ msg : String,
      Js.includes (Js.toLowerCase msg) "timeout" = false →
      Js.includes (Js.toLowerCase msg) "net::" = false →
      Js.includes (Js.toLowerCase msg) "network" = false →
      Js.includes (Js.toLowerCase msg) "blocked" = false →
      Js.includes (Js.toLowerCase msg) "403" = false →
      Js.includes (Js.toLowerCase msg) "404" = false →
      Js.includes (Js.toLowerCase msg) "not found" = false →
      Js.includes (Js.toLowerCase msg) "500" = false →
      Js.includes (Js.toLowerCase msg) "502" = false →
      Js.includes (Js.toLowerCase msg) "503" = false →
        ContentErr.classifyError msg = ContentErr.ContentErrorType.Unknown) := by
  refine ⟨?_, ?_, ?_⟩
  · intro msg h
    have hnet : Js.includes (Js.toLowerCase msg) "net::" = true := by
      have h2 := includes_toLowerCase h
      rw [(by decide : Js.toLowerCase "net::ERR_TIMED_OUT" = "net::err_timed_out")] at h2
      rw [includes_iff] at h2 ⊢
      exact List.IsInfix.trans (by decide) h2
    cases ht : Js.includes (Js.toLowerCase msg) "timeout" <;>
      simp [ContentErr.classifyError, ht, hnet]
  · intro msg h h1 h2 h3
    have h403 : Js.includes (Js.toLowerCase msg) "403" = true := by
      have h4 := includes_toLowerCase h
      rwa [(by decide : Js.toLowerCase "403" = "403")] at h4
    simp [ContentErr.classifyError, h1, h2, h3, h403]
  · intro msg h1 h2 h3 h4 h5 h6 h7 h8 h9 h10
    simp [ContentErr.classifyError, h1, h2, h3, h4, h5, h6, h7, h8, h9, h10]

/-- C5 amended, witness: each clause at a concrete message. -/
theorem claim5_classify_error_witness :
    ContentErr.classifyError "x net::ERR_TIMED_OUT" = ContentErr.ContentErrorType.NetworkError ∧
    ContentErr.classifyError "HTTP 403 Forbidden" = ContentErr.ContentErrorType.Blocked ∧
    ContentErr.classifyError "mystery" = ContentErr.ContentErrorType.Unknown := by
  refine ⟨?_, ?_, ?_⟩
  · have h := claim5_classify_error.1 "x net::ERR_TIMED_OUT" (by decide)
    rw [h]; decide
  · exact claim5_classify_error.2.1 "HTTP 403 Forbidden"
      (by decide) (by decide) (by decide) (by decide)
  · exact claim5_classify_error.2.2 "mystery" (by decide) (by decide) (by decide)
      (by decide) (by decide) (by decide) (by decide) (by decide) (by decide) (by decide)

/-- C6 counterexample: the claim lists six permanent-failure indicators
(not-found, private, disabled, unavailable, age-restricted, no-captions) and
asserts the fallback runs iff the failure message contains none of them.  The
reachable yt-dlp failure `No transcript content found` contains none of those
six indicators, yet the code does not invoke the fallback, because the code's
permanent list also contains `no transcript`. -/
theorem claim6_counterexample :
    (Youtube.fetchYouTubeTranscriptFlow
        { success := false, error := some "No transcript content found", segments := [] }
        { success := true, error := none, segments := [] }).fallbackInvoked = false ∧
    (["not found", "private", "disabled", "unavailable", "age-restricted", "no captions"].all
        (fun p => !(Js.includes (Js.toLowerCase "No transcript content found") p))) = true := by
  decide

/-- C6 amended: the fallback backend is invoked iff the primary result is a
failure whose message is missing or empty, or whose lowercase form contains
none of the seven permanent-failure indicators (not found, private,
unavailable, disabled, no captions, no transcript, age-restricted); when the
fallback runs its result is returned, otherwise the primary result is; the
native millisecond offset and duration of the fallback library are divided by
1000; and the final result is stored in the cache exactly when it is a
success. -/
theorem claim6_transcript_fallback :
    (∀ primary fallbackResult : Youtube.TranscriptResult,
      ((Youtube.fetchYouTubeTranscriptFlow primary fallbackResult).fallbackInvoked = true ↔
        primary.success = false ∧
          (primary.error = none ∨ ∃ e, primary.error = some e ∧
            (e = "" ∨ ∀ p ∈ Youtube.permanentYtDlpErrors,
              Js.includes (Js.toLowerCase e) p = false))))
  ∧ (∀ primary fallbackResult : Youtube.TranscriptResult,
      (Youtube.fetchYouTubeTranscriptFlow primary fallbackResult).result =
        (if (Youtube.fetchYouTubeTranscriptFlow primary fallbackResult).fallbackInvoked
         then fallbackResult else primary))
  ∧ (∀ primary fallbackResult : Youtube.TranscriptResult,
      (Youtube.fetchYouTubeTranscriptFlow primary fallbackResult).cacheWritten =
        (Youtube.fetchYouTubeTranscriptFlow primary fallbackResult).result.success)
  ∧ (∀ items : List Youtube.RawTranscriptItem,
      Youtube.npmItemsToSegments items = items.map (fun item =>
        { start := item.offset / 1000, duration := item.duration / 1000,
          text := item.text })) := by
  refine ⟨?_, ?_, ?_, ?_⟩
  · intro primary fallbackResult
    rw [← isRetryable_iff primary.error]
    simp [Youtube.fetchYouTubeTranscriptFlow]
  · intro primary fallbackResult
    rfl
  · intro primary fallbackResult
    rfl
  · intro items
    rfl

/-- C6 amended, witness: a retryable primary failure invokes the fallback and
the successful fallback result is cached. -/
theorem claim6_transcript_fallback_witness :
    (Youtube.fetchYouTubeTranscriptFlow
        { success := false, error := some "yt-dlp error: spawn failed", segments := [] }
        { success := true, error := none, segments := [] }).fallbackInvoked = true ∧
    Youtube.npmItemsToSegments [{ offset := 1500, duration := 2000, text := "hi" }] =
      [{ start := (1500 : ℚ) / 1000, duration := (2000 : ℚ) / 1000, text := "hi" }] := by
  constructor
  · exact (claim6_transcript_fallback.1
      { success := false, error := some "yt-dlp error: spawn failed", segments := [] }
      { success := true, error := none, segments := [] }).mpr
      ⟨rfl, Or.inr ⟨"yt-dlp error: spawn failed", rfl, Or.inr (by decide)⟩⟩
  · exact claim6_transcript_fallback.2.2.2 [{ offset := 1500, duration := 2000, text := "hi" }]

/-- C7 counterexample: the claim says a successful extraction is cached only
when the word count meets a minimum meaningful threshold.  A successful
extraction with empty text — word count 0, below any meaningful threshold —
is cached anyway: the success path writes the cache unconditionally. -/
theorem claim7_counterexample :
    (ContentExtract.fetchContentSuccessTail "https://example.com" "").1.wordCount = 0 ∧
    (ContentExtract.fetchContentSuccessTail "https://example.com" "").2 =
      [CacheUtil.generateCacheKey "content" [("url", "https://example.com")]] := by
  exact ⟨by decide, by decide⟩

/-- C7 amended: the fetchContent success path computes the word count and
then always performs exactly one cache write under the content cache key for
the URL — no word-count threshold guards the write, and the result is
returned as a success carrying the computed word count. -/
theorem claim7_unconditional_cache :
    ∀ url text : String,
      (ContentExtract.fetchContentSuccessTail url text).2 =
        [CacheUtil.generateCacheKey "content" [("url", url)]] ∧
      (ContentExtract.fetchContentSuccessTail url text).1.wordCount =
        ContentExtract.computeWordCount text ∧
      (ContentExtract.fetchContentSuccessTail url text).1.success = true := by
  intro url text
  exact ⟨rfl, rfl, rfl⟩

/-- C10: the legacy cache-administration exports of the transcript service
neither observe nor modify the shared content cache: clearCache leaves every
entry and both hit and miss counters unchanged, and getCacheStats returns the
constant record with size 0 and no keys regardless of the cache state. -/
theorem claim10_legacy_cache_frame :
    ∀ (α : Type) (s : CacheUtil.CacheState α),
      CacheUtil.clearCacheLegacy s = s ∧
      (CacheUtil.clearCacheLegacy s).entries = s.entries ∧
      (CacheUtil.clearCacheLegacy s).hits = s.hits ∧
      (CacheUtil.clearCacheLegacy s).misses = s.misses ∧
      CacheUtil.getCacheStatsLegacy s = { size := 0, keys := [] } := by
  intro α s
  exact ⟨rfl, rfl, rfl, rfl, rfl⟩

/-- Releasing an id touched by markInUse cancels the mark. -/
theorem releaseContext_markInUse (pool : BrowserPool.Pool) (i : Nat) :
    BrowserPool.releaseContext (BrowserPool.markInUse pool i) i =
      BrowserPool.releaseContext pool i := by
  simp only [BrowserPool.releaseContext, BrowserPool.markInUse, List.map_map]
  congr 1
  funext c
  by_cases h : c.id = i <;> simp [h, Function.comp]

/-- Releasing an id absent from the pool changes nothing. -/
theorem releaseContext_not_mem (pool : BrowserPool.Pool) (i : Nat)
    (h : ∀ c ∈ pool, c.id ≠ i) : BrowserPool.releaseContext pool i = pool := by
  induction pool with
  | nil => rfl
  | cons a t ih =>
    simp only [BrowserPool.releaseContext, List.map_cons]
    rw [if_neg (h a (List.mem_cons_self a t))]
    have := ih (fun c hc => h c (List.mem_cons_of_mem a hc))
    simpa [BrowserPool.releaseContext] using this

/-- Releasing the id of an already-idle session leaves the pool unchanged,
when ids are unique. -/
theorem releaseContext_idle (pool : BrowserPool.Pool) (c : BrowserPool.Session)
    (hnd : (pool.map BrowserPool.Session.id).Nodup) (hc : c ∈ pool)
    (hidle : c.inUse = false) : BrowserPool.releaseContext pool c.id = pool := by
  induction pool with
  | nil => cases hc
  | cons a t ih =>
    simp only [List.map_cons, List.nodup_cons] at hnd
    rcases List.mem_cons.mp hc with rfl | hct
    · simp only [BrowserPool.releaseContext, List.map_cons, if_pos rfl]
      have h1 : { c with inUse := false } = c := by
        cases c
        simp_all
      rw [h1]
      have h2 : ∀ x ∈ t, x.id ≠ c.id := by
        intro x hx he
        exact hnd.1 (he ▸ List.mem_map_of_mem BrowserPool.Session.id hx)
      have := releaseContext_not_mem t c.id h2
      simpa [BrowserPool.releaseContext] using this
    · have hne : a.id ≠ c.id := by
        intro he
        exact hnd.1 (he ▸ List.mem_map_of_mem BrowserPool.Session.id hct)
      simp only [BrowserPool.releaseContext, List.map_cons, if_neg hne]
      have := ih hnd.2 hct
      simpa [BrowserPool.releaseContext] using this

/-- releaseContext keeps the id sequence of the pool. -/
theorem releaseContext_map_id (pool : BrowserPool.Pool) (i : Nat) :
    (BrowserPool.releaseContext pool i).map BrowserPool.Session.id =
      pool.map BrowserPool.Session.id := by
  simp only [BrowserPool.releaseContext, List.map_map]
  congr 1
  funext c
  by_cases h : c.id = i <;> simp [h, Function.comp]

/-- Well-formedness of a pool state: ids are pairwise distinct and below the
fresh-id counter.  This holds for every state reachable from the empty pool
because new contexts draw a fresh id. -/
def WFPool (s : BrowserPool.PoolState) : Prop :=
  (s.pool.map BrowserPool.Session.id).Nodup ∧ ∀ c ∈ s.pool, c.id < s.nextId

/-- One fetch call preserves well-formedness and the in-use count: the
acquired context (if any) is released before the call returns. -/
theorem fetchCall_preserves (m : Nat) (s : BrowserPool.PoolState)
    (o : FetchDiscipline.CallOutcome) (hwf : WFPool s) :
    WFPool (FetchDiscipline.fetchCall m s o).state ∧
      BrowserPool.activeCount (FetchDiscipline.fetchCall m s o).state.pool =
        BrowserPool.activeCount s.pool := by
  obtain ⟨hnd, hlt⟩ := hwf
  cases o with
  | earlyReturn => exact ⟨⟨hnd, hlt⟩, rfl⟩
  | createThrows => exact ⟨⟨hnd, hlt⟩, rfl⟩
  | bodyThrows | bodySucceeds =>
    simp only [FetchDiscipline.fetchCall]
    by_cases hm : m ≤ BrowserPool.activeCount s.pool
    · cases hf : BrowserPool.findIdle s.pool with
      | none =>
        simp only [BrowserPool.acquireContext, if_pos hm, hf]
        exact ⟨⟨hnd, hlt⟩, by trivial⟩
      | some c =>
        simp only [BrowserPool.acquireContext, if_pos hm, hf]
        have hcm : c ∈ s.pool := List.mem_of_find?_eq_some hf
        have hidle : c.inUse = false := by
          have := List.find?_some hf
          simpa using this
        rw [releaseContext_markInUse, releaseContext_idle s.pool c hnd hcm hidle]
        exact ⟨⟨hnd, hlt⟩, rfl⟩
    · simp only [BrowserPool.acquireContext, if_neg hm]
      have hfresh : ∀ x ∈ s.pool, x.id ≠ s.nextId := by
        intro x hx he
        exact absurd (hlt x hx) (by omega)
      constructor
      · constructor
        · rw [releaseContext_map_id]
          simp only [List.map_append, List.map_cons, List.map_nil]
          rw [List.nodup_append]
          refine ⟨hnd, List.nodup_singleton _, ?_⟩
          intro x hx hy
          simp only [List.mem_singleton] at hy
          subst hy
          rcases List.mem_map.mp hx with ⟨cx, hcx, hcx2⟩
          exact hfresh cx hcx hcx2
        · intro c hc
          have : (BrowserPool.releaseContext
              (s.pool ++ [⟨s.nextId, true, BrowserPool.contextViewport,
                BrowserPool.contextUserAgent⟩]) s.nextId) =
              BrowserPool.releaseContext s.pool s.nextId ++
                [⟨s.nextId, false, BrowserPool.contextViewport,
                  BrowserPool.contextUserAgent⟩] := by
            simp [BrowserPool.releaseContext]
          rw [this, releaseContext_not_mem s.pool s.nextId hfresh] at hc
          rcases List.mem_append.mp hc with hc1 | hc1
          · exact Nat.lt_succ_of_lt (hlt c hc1)
          · simp only [List.mem_singleton] at hc1
            subst hc1
            exact Nat.lt_succ_self _
      · have : (BrowserPool.releaseContext
            (s.pool ++ [⟨s.nextId, true, BrowserPool.contextViewport,
              BrowserPool.contextUserAgent⟩]) s.nextId) =
            BrowserPool.releaseContext s.pool s.nextId ++
              [⟨s.nextId, false, BrowserPool.contextViewport,
                BrowserPool.contextUserAgent⟩] := by
          simp [BrowserPool.releaseContext]
        rw [this, releaseContext_not_mem s.pool s.nextId hfresh]
        simp [BrowserPool.activeCount, List.filter_append]

/-- Running any sequence of fetch calls from a well-formed state preserves
well-formedness and the in-use count. -/
theorem runFetches_preserves (m : Nat) (outcomes : List FetchDiscipline.CallOutcome) :
    ∀ s : BrowserPool.PoolState, WFPool s →
      WFPool (FetchDiscipline.runFetches m s outcomes) ∧
        BrowserPool.activeCount (FetchDiscipline.runFetches m s outcomes).pool =
          BrowserPool.activeCount s.pool := by
  induction outcomes with
  | nil => intro s hwf; exact ⟨hwf, rfl⟩
  | cons o os ih =>
    intro s hwf
    obtain ⟨hwf1, hcount1⟩ := fetchCall_preserves m s o hwf
    obtain ⟨hwf2, hcount2⟩ := ih _ hwf1
    refine ⟨?_, ?_⟩ <;> simp only [FetchDiscipline.runFetches]
    · exact hwf2
    · rw [hcount2, hcount1]

/-- C3: on every code path of a pooled fetch call — early return, a throw
before the context variable is assigned, a throw out of the extraction body,
or success — the ids released before the call returns are exactly the ids
acquired during the call (each acquired id once); consequently, after any
sequence of fetch calls against the initially empty pool, the pool's count of
in-use sessions (the activeContexts of getStatus) is 0. -/
theorem claim3_no_session_leak :
    (∀ (m : Nat) (s : BrowserPool.PoolState) (o : FetchDiscipline.CallOutcome),
      (FetchDiscipline.fetchCall m s o).released =
        (FetchDiscipline.fetchCall m s o).acquired ∧
      (FetchDiscipline.fetchCall m s o).acquired.Nodup)
  ∧ (∀ (m : Nat) (outcomes : List FetchDiscipline.CallOutcome),
      BrowserPool.activeCount
        (FetchDiscipline.runFetches m BrowserPool.initState outcomes).pool = 0) := by
  constructor
  · intro m s o
    cases o with
    | earlyReturn => exact ⟨rfl, List.nodup_nil⟩
    | createThrows => exact ⟨rfl, List.nodup_nil⟩
    | bodyThrows | bodySucceeds =>
      simp only [FetchDiscipline.fetchCall]
      rcases h : BrowserPool.acquireContext s.pool s.nextId m with ⟨r, pool⟩
      cases r <;> simp
  · intro m outcomes
    have hwf : WFPool BrowserPool.initState := ⟨List.nodup_nil, by intro c hc; cases hc⟩
    have := (runFetches_preserves m outcomes BrowserPool.initState hwf).2
    simpa [BrowserPool.initState, BrowserPool.activeCount] using this

/-- With pairwise-distinct keys, the first match for a key is the unique
pair carrying that key. -/
theorem find_key_iff (l : List (String × String)) (k : String)
    (hnd : (l.map Prod.fst).Nodup) (x : String × String) :
    l.find? (fun p => p.1 == k) = some x ↔ x ∈ l ∧ x.1 = k := by
  constructor
  · intro h
    refine ⟨List.mem_of_find?_eq_some h, ?_⟩
    have := List.find?_some h
    simpa using this
  · rintro ⟨hmem, hkey⟩
    induction l with
    | nil => cases hmem
    | cons a t ih =>
      simp only [List.map_cons, List.nodup_cons] at hnd
      rcases List.mem_cons.mp hmem with rfl | hmt
      · simp [List.find?, hkey]
      · have hne : ¬(a.1 == k) = true := by
          simp only [beq_iff_eq]
          intro he
          exact hnd.1 (he ▸ hkey ▸ List.mem_map_of_mem Prod.fst hmt)
        simp only [List.find?, hne]
        exact ih hnd.2 hmt

/-- Lookup by key is stable under permutation when keys are distinct. -/
theorem find_key_perm {ps qs : List (String × String)} (hperm : ps.Perm qs)
    (hnd : (ps.map Prod.fst).Nodup) (k : String) :
    ps.find? (fun p => p.1 == k) = qs.find? (fun p => p.1 == k) := by
  have hndq : (qs.map Prod.fst).Nodup := ((hperm.map Prod.fst).nodup_iff).mp hnd
  cases hq : qs.find? (fun p => p.1 == k) with
  | some x =>
    have hx := (find_key_iff qs k hndq x).mp hq
    exact (find_key_iff ps k hnd x).mpr ⟨hperm.symm.subset hx.1, hx.2⟩
  | none =>
    rw [List.find?_eq_none] at hq ⊢
    intro x hx
    exact hq x (hperm.subset hx)

/-- C9: generateCacheKey is independent of parameter insertion order — for
any prefix and any two parameter lists holding the same key/value bindings
(distinct keys, any order), the generated key strings are identical; the keys
are rendered in lexicographically sorted order. -/
theorem claim9_cache_key_order_independent :
    (∀ (pre : String) (ps qs : List (String × String)),
      (ps.map Prod.fst).Nodup → ps.Perm qs →
        CacheUtil.generateCacheKey pre ps = CacheUtil.generateCacheKey pre qs)
  ∧ (∀ ps : List (String × String),
      ((ps.map Prod.fst).insertionSort (· ≤ ·)).Sorted (· ≤ ·)) := by
  constructor
  · intro pre ps qs hnd hperm
    have hkeys : (ps.map Prod.fst).insertionSort (· ≤ ·) =
        (qs.map Prod.fst).insertionSort (· ≤ ·) := by
      haveI : IsAntisymm String (· ≤ ·) := ⟨fun a b h1 h2 => le_antisymm h1 h2⟩
      exact List.eq_of_perm_of_sorted
        ((List.perm_insertionSort _ _).trans
          ((hperm.map Prod.fst).trans (List.perm_insertionSort _ _).symm))
        (List.sorted_insertionSort _ _) (List.sorted_insertionSort _ _)
    simp only [CacheUtil.generateCacheKey]
    rw [hkeys]
    congr 1
    congr 1
    apply List.map_congr_left
    intro k _
    rw [find_key_perm hperm hnd k]
  · intro ps
    exact List.sorted_insertionSort _ _

/-- C9 witness: the two insertion orders of the spec example produce the
same key. -/
theorem claim9_cache_key_order_independent_witness :
    CacheUtil.generateCacheKey "k" [("a", "1"), ("b", "2")] =
      CacheUtil.generateCacheKey "k" [("b", "2"), ("a", "1")] :=
  claim9_cache_key_order_independent.1 "k" [("a", "1"), ("b", "2")]
    [("b", "2"), ("a", "1")] (by decide) (by decide)

/-- C8: the x.com and twitter.com spellings of a post URL parse to the same
canonical components — in particular the same normalized `https://x.com/...`
URL and hence the same cache key; a path without a `/status/<digits>` segment
parses to nothing, making fetchTwitterContent fail with InvalidUrl; and any
URL whose hostname lies outside the fixed allow-list is likewise rejected. -/
theorem claim8_twitter_url_normalization :
    TwitterX.parseTwitterUrl "https://x.com/foo/status/123" =
      some ⟨"foo", "123", "https://x.com/foo/status/123"⟩ ∧
    TwitterX.parseTwitterUrl "https://twitter.com/foo/status/123" =
      some ⟨"foo", "123", "https://x.com/foo/status/123"⟩ ∧
    (TwitterX.parseTwitterUrl "https://twitter.com/foo/status/123").map
        TwitterX.twitterCacheKey =
      (TwitterX.parseTwitterUrl "https://x.com/foo/status/123").map
        TwitterX.twitterCacheKey ∧
    TwitterX.parseTwitterUrl "https://x.com/foo" = none ∧
    TwitterX.fetchTwitterValidate "https://x.com/foo" =
      some ContentErr.ContentErrorType.InvalidUrl ∧
    (∀ (url : String) (parts : TwitterX.UrlParts),
      TwitterX.parseUrl url = some parts →
      TwitterX.validHosts.contains parts.hostname = false →
        TwitterX.parseTwitterUrl url = none ∧
        TwitterX.fetchTwitterValidate url =
          some ContentErr.ContentErrorType.InvalidUrl) := by
  refine ⟨by decide, by decide, by decide, by decide, by decide, ?_⟩
  intro url parts h1 h2
  have hp : TwitterX.parseTwitterUrl url = none := by
    have hmem : ¬ TwitterX.validHosts.contains parts.hostname = true := by
      rw [h2]
      exact Bool.false_ne_true
    simp only [TwitterX.parseTwitterUrl, h1, if_neg hmem]
  exact ⟨hp, by simp [TwitterX.fetchTwitterValidate, hp]⟩

/-- C8 witness: a URL on a host outside the allow-list is rejected. -/
theorem claim8_twitter_url_normalization_witness :
    TwitterX.parseTwitterUrl "https://facebook.com/foo/status/123" = none ∧
    TwitterX.fetchTwitterValidate "https://facebook.com/foo/status/123" =
      some ContentErr.ContentErrorType.InvalidUrl :=
  claim8_twitter_url_normalization.2.2.2.2.2 "https://facebook.com/foo/status/123"
    ⟨"facebook.com", "/foo/status/123"⟩ (by decide) (by decide)

/-- C4: the VTT subtitle parser maps the two-cue example to exactly the two
claimed segments; in general a line matching the timestamp pattern flushes
the previously accumulated text block (when one exists) and starts a new
segment from the two parsed timestamps, a 12-character `HH:MM:SS.mmm`
timestamp converts as hours*3600 + minutes*60 + seconds plus the
milliseconds fraction, and the final accumulated block is flushed after the
scan of all lines ends. -/
theorem claim4_vtt_parsing :
    (Youtube.parseVttSubtitles
        "00:00:01.000 --> 00:00:03.500\nHello world\n\n00:00:03.500 --> 00:00:05.000\nGoodbye" =
      [{ start := 1, duration := 5/2, text := "Hello world" },
       { start := 7/2, duration := 3/2, text := "Goodbye" }])
  ∧ (∀ (st : Youtube.VttState) (line : String) (ts1 ts2 : List Char),
      Youtube.scanVttTimestamps line.data = some (ts1, ts2) →
        Youtube.vttStep st line =
          { currentStart := Youtube.parseVttTimestamp (String.mk ts1),
            currentEnd := Youtube.parseVttTimestamp (String.mk ts2),
            currentText := "",
            segments := st.segments ++
              (if st.currentText ≠ "" then [Youtube.flushSegment st] else []) })
  ∧ (∀ (d1 d2 d3 d4 d5 d6 d7 d8 d9 : Char),
      d1.isDigit = true → d2.isDigit = true → d3.isDigit = true →
      d4.isDigit = true → d5.isDigit = true → d6.isDigit = true →
      d7.isDigit = true → d8.isDigit = true → d9.isDigit = true →
        Youtube.parseVttTimestamp
            (String.mk [d1, d2, ':', d3, d4, ':', d5, d6, '.', d7, d8, d9]) =
          ((10 * (d1.toNat - 48) + (d2.toNat - 48) : Nat) : ℚ) * 3600 +
          ((10 * (d3.toNat - 48) + (d4.toNat - 48) : Nat) : ℚ) * 60 +
          (((10 * (d5.toNat - 48) + (d6.toNat - 48) : Nat) : ℚ) +
            ((100 * (d7.toNat - 48) + 10 * (d8.toNat - 48) + (d9.toNat - 48) : Nat) : ℚ) / 1000))
  ∧ (∀ (content : String) (st : Youtube.VttState),
      ((Js.splitOnChar (Char.ofNat 10) content.data).map String.mk).foldl Youtube.vttStep
          { currentStart := 0, currentEnd := 0, currentText := "", segments := [] } = st →
      st.currentText ≠ "" →
        Youtube.parseVttSubtitles content = st.segments ++ [Youtube.flushSegment st]) := by
  refine ⟨?_, ?_, ?_, ?_⟩
  · have e : Youtube.parseVttSubtitles
        "00:00:01.000 --> 00:00:03.500\nHello world\n\n00:00:03.500 --> 00:00:05.000\nGoodbye" =
        [{ start := Youtube.parseVttTimestamp "00:00:01.000",
           duration := Youtube.parseVttTimestamp "00:00:03.500" -
             Youtube.parseVttTimestamp "00:00:01.000",
           text := "Hello world" },
         { start := Youtube.parseVttTimestamp "00:00:03.500",
           duration := Youtube.parseVttTimestamp "00:00:05.000" -
             Youtube.parseVttTimestamp "00:00:03.500",
           text := "Goodbye" }] := rfl
    have h1 : Youtube.parseVttTimestamp "00:00:01.000" = 1 := by
      simp [Youtube.parseVttTimestamp, Youtube.splitOnColon, Youtube.jsParseIntDec,
        Youtube.jsParseFloat]
    have h2 : Youtube.parseVttTimestamp "00:00:03.500" = 7/2 := by
      simp [Youtube.parseVttTimestamp, Youtube.splitOnColon, Youtube.jsParseIntDec,
        Youtube.jsParseFloat]
      norm_num
    have h3 : Youtube.parseVttTimestamp "00:00:05.000" = 5 := by
      simp [Youtube.parseVttTimestamp, Youtube.splitOnColon, Youtube.jsParseIntDec,
        Youtube.jsParseFloat]
    rw [e, h1, h2, h3]
    norm_num
  · intro st line ts1 ts2 h
    simp only [Youtube.vttStep, h]
    by_cases hc : st.currentText = "" <;> simp [hc]
  · intro d1 d2 d3 d4 d5 d6 d7 d8 d9 h1 h2 h3 h4 h5 h6 h7 h8 h9
    have ne1 : d1 ≠ ':' := fun he => by rw [he] at h1; exact absurd h1 (by decide)
    have ne2 : d2 ≠ ':' := fun he => by rw [he] at h2; exact absurd h2 (by decide)
    have ne3 : d3 ≠ ':' := fun he => by rw [he] at h3; exact absurd h3 (by decide)
    have ne4 : d4 ≠ ':' := fun he => by rw [he] at h4; exact absurd h4 (by decide)
    have ne5 : d5 ≠ ':' := fun he => by rw [he] at h5; exact absurd h5 (by decide)
    have ne6 : d6 ≠ ':' := fun he => by rw [he] at h6; exact absurd h6 (by decide)
    have ne7 : d7 ≠ ':' := fun he => by rw [he] at h7; exact absurd h7 (by decide)
    have ne8 : d8 ≠ ':' := fun he => by rw [he] at h8; exact absurd h8 (by decide)
    have ne9 : d9 ≠ ':' := fun he => by rw [he] at h9; exact absurd h9 (by decide)
    have hdot : ('.' : Char).isDigit = false := by decide
    have nedot : ('.' : Char) ≠ ':' := by decide
    have tw12 : List.takeWhile Char.isDigit [d1, d2] = [d1, d2] := by
      simp [List.takeWhile_cons, h1, h2]
    have tw34 : List.takeWhile Char.isDigit [d3, d4] = [d3, d4] := by
      simp [List.takeWhile_cons, h3, h4]
    have tw56i : List.takeWhile Char.isDigit [d5, d6] = [d5, d6] := by
      simp [List.takeWhile_cons, h5, h6]
    have tw56 : List.takeWhile Char.isDigit [d5, d6, '.', d7, d8, d9] = [d5, d6] := by
      simp [List.takeWhile_cons, h5, h6, hdot]
    have tw789 : List.takeWhile Char.isDigit [d7, d8, d9] = [d7, d8, d9] := by
      simp [List.takeWhile_cons, h7, h8, h9]
    have p12 : Youtube.jsParseIntDec [d1, d2] = 10 * (d1.toNat - 48) + (d2.toNat - 48) := by
      simp only [Youtube.jsParseIntDec, tw12, List.foldl_cons, List.foldl_nil]
      ring
    have p34 : Youtube.jsParseIntDec [d3, d4] = 10 * (d3.toNat - 48) + (d4.toNat - 48) := by
      simp only [Youtube.jsParseIntDec, tw34, List.foldl_cons, List.foldl_nil]
      ring
    have p56 : Youtube.jsParseIntDec [d5, d6] = 10 * (d5.toNat - 48) + (d6.toNat - 48) := by
      simp only [Youtube.jsParseIntDec, tw56i, List.foldl_cons, List.foldl_nil]
      ring
    have p789 : Youtube.jsParseIntDec [d7, d8, d9] =
        100 * (d7.toNat - 48) + 10 * (d8.toNat - 48) + (d9.toNat - 48) := by
      simp only [Youtube.jsParseIntDec, tw789, List.foldl_cons, List.foldl_nil]
      ring
    have pf : Youtube.jsParseFloat [d5, d6, '.', d7, d8, d9] =
        (Youtube.jsParseIntDec [d5, d6] : ℚ) +
          (Youtube.jsParseIntDec [d7, d8, d9] : ℚ) / 10 ^ 3 := by
      simp only [Youtube.jsParseFloat, tw56, tw789, List.length_cons, List.length_nil,
        List.drop_succ_cons, List.drop_zero]
    have main : Youtube.parseVttTimestamp
        (String.mk [d1, d2, ':', d3, d4, ':', d5, d6, '.', d7, d8, d9]) =
        (Youtube.jsParseIntDec [d1, d2] : ℚ) * 3600 +
          (Youtube.jsParseIntDec [d3, d4] : ℚ) * 60 +
          Youtube.jsParseFloat [d5, d6, '.', d7, d8, d9] := by
      simp [Youtube.parseVttTimestamp, Youtube.splitOnColon, ne1, ne2, ne3, ne4, ne5,
        ne6, ne7, ne8, ne9, nedot]
    rw [main, pf, p12, p34, p56, p789]
    push_cast
    ring
  · intro content st h hne
    simp only [Youtube.parseVttSubtitles]
    rw [h, if_pos hne]

/-- C4 witness: the flush step, the conversion formula, and the final flush
at concrete inputs drawn from the example. -/
theorem claim4_vtt_parsing_witness :
    Youtube.vttStep ⟨0, 0, "Hello", []⟩ "00:00:03.500 --> 00:00:05.000" =
      { currentStart := Youtube.parseVttTimestamp "00:00:03.500",
        currentEnd := Youtube.parseVttTimestamp "00:00:05.000",
        currentText := "",
        segments := [Youtube.flushSegment ⟨0, 0, "Hello", []⟩] } ∧
    Youtube.parseVttTimestamp "00:00:01.000" = 1 ∧
    Youtube.parseVttSubtitles "00:00:01.000 --> 00:00:02.000\nHi" =
      [Youtube.flushSegment ⟨Youtube.parseVttTimestamp "00:00:01.000",
        Youtube.parseVttTimestamp "00:00:02.000", "Hi", []⟩] := by
  refine ⟨?_, ?_, ?_⟩
  · have h := claim4_vtt_parsing.2.1 ⟨0, 0, "Hello", []⟩ "00:00:03.500 --> 00:00:05.000"
      "00:00:03.500".data "00:00:05.000".data (by decide)
    simpa using h
  · have h := claim4_vtt_parsing.2.2.1 '0' '0' '0' '0' '0' '1' '0' '0' '0'
      (by decide) (by decide) (by decide) (by decide) (by decide) (by decide)
      (by decide) (by decide) (by decide)
    have c0 : ('0' : Char).toNat = 48 := by decide
    have c1 : ('1' : Char).toNat = 49 := by decide
    rw [c0, c1] at h
    norm_num at h
    exact h
  · have h := claim4_vtt_parsing.2.2.2 "00:00:01.000 --> 00:00:02.000\nHi"
      ⟨Youtube.parseVttTimestamp "00:00:01.000",
        Youtube.parseVttTimestamp "00:00:02.000", "Hi", []⟩ rfl (by decide)
    simpa using h
